import Mathlib

/-!
Verification of the cross-document validation and caching engine of
ai-doc-verifier against its specification.

The definitions below are a shallow embedding of the Python sources:
- `src/backend/ai_backend_gemini.py` (DocumentData, AIDocumentExtractor,
  CNPJValidator, DocumentComparator),
- `src/backend/utils.py` (workflow_hash),
- `src/backend/database.py` (document and workflow caches),
- `src/backend/api_server.py` (_extract_with_cache, _build_report,
  process_complete).

Python floats are modelled by rationals, Python exceptions by `Option` /
`Except`, the SQLite tables by lists of rows, and the external services
(Gemini, SHA-256, the CNPJ registry) by function parameters (oracles).
-/

set_option maxRecDepth 4000

/-- Values stored in the per-field comparison map.  Python keeps the values
dynamically typed: strings for text fields, `int` for `packages`, `float`
for `gross_weight` and `cbm`. -/
inductive Value where
  | str (s : String)
  | int (n : ℤ)
  | num (q : ℚ)
  deriving DecidableEq, Repr

/-- Python truthiness of a collected value (`if v:`). -/
def Value.truthy : Value → Bool
  | .str s => s ≠ ""
  | .int n => n ≠ 0
  | .num q => q ≠ 0

/-- Python `float(v)`: succeeds on numbers; on a string raises
(`none`) unless it happens to parse, which never occurs for the values the
comparator collects, so strings are modelled as the failure case. -/
def Value.toQ : Value → Option ℚ
  | .str _ => none
  | .int n => some (n : ℚ)
  | .num q => some q

/-- Python `str(v)` for the values the comparator can collect. -/
def Value.toStr : Value → String
  | .str s => s
  | .int n => toString n
  | .num q => toString q

/-- Python `str.lower()` (ASCII case fold, character by character). -/
def strLower (s : String) : String := String.mk (s.toList.map Char.toLower)

/-- Python `str.strip()`: remove leading and trailing whitespace. -/
def pyStrip (s : String) : String :=
  String.mk
    (((s.toList.dropWhile Char.isWhitespace).reverse.dropWhile
        Char.isWhitespace).reverse)

/-- `@dataclass DocumentData` of `ai_backend_gemini.py`: every field is
independently nullable. -/
structure DocumentData where
  shipper_name : Option String := none
  consignee : Option String := none
  cnpj : Option String := none
  localization : Option String := none
  ncm_4d : Option String := none
  ncm_8d : Option String := none
  packages : Option ℤ := none
  gross_weight : Option ℚ := none
  cbm : Option ℚ := none
  raw_text : Option String := none
  extraction_method : Option String := none
  confidence : Option ℚ := none
  deriving DecidableEq, Repr

/-- The field keys the comparator reads with `getattr(doc, comp["key"])`. -/
inductive FieldKey where
  | shipper_name | consignee | cnpj | ncm_4d | ncm_8d
  | packages | gross_weight | cbm
  deriving DecidableEq, Repr

/-- `getattr(doc, key, None)`, wrapped into a `Value` of the field's
runtime type. -/
def getVal (doc : DocumentData) : FieldKey → Option Value
  | .shipper_name => doc.shipper_name.map .str
  | .consignee => doc.consignee.map .str
  | .cnpj => doc.cnpj.map .str
  | .ncm_4d => doc.ncm_4d.map .str
  | .ncm_8d => doc.ncm_8d.map .str
  | .packages => doc.packages.map .int
  | .gross_weight => doc.gross_weight.map .num
  | .cbm => doc.cbm.map .num

/-- A comparison descriptor, one element of the `comparisons` list in
`DocumentComparator.compare`.  `ctype` merges the `"type"` and
`"tolerance"` entries (`comp.get("tolerance", 0)`). -/
inductive CompType where
  | text
  | cnpjType
  | numeric (tolerance : ℚ)
  deriving DecidableEq, Repr

structure Comparison where
  field : String
  key : FieldKey
  docs : List (String × DocumentData)
  ctype : CompType
  deriving Repr

/-- The document list `[("BL", bl), ("Invoice", invoice)]`. -/
def docsBI (bl invoice : DocumentData) : List (String × DocumentData) :=
  [("BL", bl), ("Invoice", invoice)]

/-- `[("BL", bl), ("Invoice", invoice), ("Packing", packing)] if packing
else [("BL", bl), ("Invoice", invoice)]`. -/
def docsBIP (bl invoice : DocumentData) (packing : Option DocumentData) :
    List (String × DocumentData) :=
  match packing with
  | some p => [("BL", bl), ("Invoice", invoice), ("Packing", p)]
  | none => [("BL", bl), ("Invoice", invoice)]

def shipperComp (bl invoice : DocumentData) : Comparison :=
  ⟨"Shipper Name", .shipper_name, docsBI bl invoice, .text⟩

def consigneeComp (bl invoice : DocumentData) (packing : Option DocumentData) : Comparison :=
  ⟨"Consignee", .consignee, docsBIP bl invoice packing, .text⟩

def cnpjComp (bl invoice : DocumentData) : Comparison :=
  ⟨"CNPJ", .cnpj, docsBI bl invoice, .cnpjType⟩

def ncm4Comp (bl invoice : DocumentData) : Comparison :=
  ⟨"NCM 4 Digits", .ncm_4d, docsBI bl invoice, .text⟩

def ncm8Comp (bl invoice : DocumentData) : Comparison :=
  ⟨"NCM 8 Digits", .ncm_8d, docsBI bl invoice, .text⟩

def packagesComp (bl invoice : DocumentData) (packing : Option DocumentData) : Comparison :=
  ⟨"Number of Packages", .packages, docsBIP bl invoice packing, .numeric 0⟩

def grossWeightComp (bl invoice : DocumentData) (packing : Option DocumentData) : Comparison :=
  ⟨"Gross Weight (kg)", .gross_weight, docsBIP bl invoice packing, .numeric (2/100)⟩

def cbmComp (bl invoice : DocumentData) (packing : Option DocumentData) : Comparison :=
  ⟨"CBM (m³)", .cbm, docsBIP bl invoice packing, .numeric (2/100)⟩

/-- The `comparisons` list of `DocumentComparator.compare`, in source
order. -/
def comparisons (bl invoice : DocumentData) (packing : Option DocumentData) :
    List Comparison :=
  [shipperComp bl invoice,
   consigneeComp bl invoice packing,
   cnpjComp bl invoice,
   ncm4Comp bl invoice,
   ncm8Comp bl invoice,
   packagesComp bl invoice packing,
   grossWeightComp bl invoice packing,
   cbmComp bl invoice packing]

/-- The `values` dict collected for one comparison: each participating
document's non-null value tagged with its role, in document order. -/
def collect (c : Comparison) : List (String × Value) :=
  c.docs.filterMap fun nd => (getVal nd.2 c.key).map fun v => (nd.1, v)

namespace DocumentComparator

/-- `DocumentComparator._compare_text`: keep the truthy values, normalize
(strip + lower), match iff the normalized values form one equivalence
class.  Calling `.strip()` on a non-string raises, modelled by `none`;
this never happens for the text fields the comparator collects. -/
def compare_text (values : List (String × Value)) : Option Bool := do
  let normalized ← (values.map Prod.snd).filterMap
      (fun v => if v.truthy then some v else none) |>.mapM
      (fun v => match v with
        | .str s => some (strLower (pyStrip s))
        | _ => none)
  return normalized.dedup.length = 1

/-- `DocumentComparator._compare_cnpj`: keep the truthy values, strip every
non-digit character from `str(v)`, match iff all cleaned values are
identical. -/
def compare_cnpj (values : List (String × Value)) : Bool :=
  let cleaned := (values.map Prod.snd).filterMap
      (fun v => if v.truthy then
          some (String.mk (v.toStr.toList.filter Char.isDigit))
        else none)
  cleaned.dedup.length = 1

/-- `DocumentComparator._compare_numeric`: coerce to float, `False` on an
empty list, exact set-equality when the tolerance is 0, otherwise every
value must satisfy `abs(n - avg) / avg <= tolerance` (note the signed
denominator).  `none` models a raised exception (a failing `float()`
conversion or division by a zero mean). -/
def compare_numeric (values : List (String × Value)) (tolerance : ℚ) : Option Bool := do
  let nums ← (values.map Prod.snd).mapM Value.toQ
  if nums = [] then
    return false
  else if tolerance = 0 then
    return nums.dedup.length = 1
  else
    let avg := nums.sum / (nums.length : ℚ)
    if avg = 0 then
      none
    else
      return nums.all fun n => |n - avg| / avg ≤ tolerance

/-- Dispatch on `comp["type"]`. -/
def matchResult (ctype : CompType) (values : List (String × Value)) : Option Bool :=
  match ctype with
  | .text => compare_text values
  | .cnpjType => some (compare_cnpj values)
  | .numeric tol => compare_numeric values tol

/-- The comparison report accumulated by `DocumentComparator.compare`. -/
structure Detail where
  field : String
  values : List (String × Value)
  status : String
  deriving DecidableEq, Repr

structure Report where
  total_checks : ℕ
  passed : ℕ
  failed : ℕ
  warnings : ℕ
  details : List Detail
  deriving DecidableEq, Repr

def isNcmKey : FieldKey → Bool
  | .ncm_4d => true
  | .ncm_8d => true
  | _ => false

/-- `set(values.keys()) == {"BL", "Invoice"}`. -/
def keysAreBLInvoice (values : List (String × Value)) : Bool :=
  let keys := values.map Prod.fst
  keys.contains "BL" && keys.contains "Invoice" &&
    keys.all fun k => k = "BL" || k = "Invoice"

/-- One iteration of the `for comp in comparisons` loop. -/
def step (r : Report) (c : Comparison) : Option Report :=
  let values := collect c
  if values = [] then
    some r
  else if isNcmKey c.key && !keysAreBLInvoice values then
    some { r with
      total_checks := r.total_checks + 1
      failed := r.failed + 1
      details := r.details ++ [⟨c.field, values, "mismatch"⟩] }
  else
    match matchResult c.ctype values with
    | none => none
    | some m =>
        if m then
          some { r with
            total_checks := r.total_checks + 1
            passed := r.passed + 1
            details := r.details ++ [⟨c.field, values, "match"⟩] }
        else
          some { r with
            total_checks := r.total_checks + 1
            failed := r.failed + 1
            details := r.details ++ [⟨c.field, values, "mismatch"⟩] }

/-- `DocumentComparator.compare`; `none` models an uncaught exception
inside the loop. -/
def compare (bl invoice : DocumentData) (packing : Option DocumentData := none) :
    Option Report :=
  (comparisons bl invoice packing).foldlM step ⟨0, 0, 0, 0, []⟩

end DocumentComparator

namespace CNPJValidator

/-- `re.sub(r'\D', '', cnpj)`: keep only the digit characters. -/
def cnpj_digits (cnpj : String) : List Char :=
  cnpj.toList.filter Char.isDigit

/-- The character for a decimal digit, `f"{d}"` for `d ≤ 9`. -/
def digitChar (d : ℕ) : Char := Char.ofNat (48 + d)

/-- The nested `calc_digit` helper of `CNPJValidator.validate_format`:
weighted sum of the digits, mod 11, then `0` if the remainder is `< 2`
else `11 - remainder`. -/
def calc_digit (cnpj_part : List Char) (weights : List ℕ) : ℕ :=
  let total := ((cnpj_part.zip weights).map
      (fun dw => (dw.1.toNat - 48) * dw.2)).sum
  let remainder := total % 11
  if remainder < 2 then 0 else 11 - remainder

def weights1 : List ℕ := [5, 4, 3, 2, 9, 8, 7, 6, 5, 4, 3, 2]

def weights2 : List ℕ := [6, 5, 4, 3, 2, 9, 8, 7, 6, 5, 4, 3, 2]

/-- `CNPJValidator.validate_format`.  Note that the source computes the
second check digit from `cnpj[:13]`, i.e. from the first 13 digits of the
input itself. -/
def validate_format (cnpj : String) : Bool :=
  let c := cnpj_digits cnpj
  if c.length ≠ 14 then false
  else
    match c with
    | [] => false
    | c0 :: _ =>
      if c = List.replicate 14 c0 then false
      else
        let digit1 := calc_digit (c.take 12) weights1
        let digit2 := calc_digit (c.take 13) weights2
        c.drop 12 = (Nat.toDigits 10 digit1 ++ Nat.toDigits 10 digit2)

end CNPJValidator

/-- Modelled from the spec (§4.1 and claim C3): a cleaned CNPJ is valid
iff it has exactly 14 digits, is not 14 copies of one digit, and its last
two digits are the two check digits obtained by the first weighted-sum
pass over the first 12 digits and the second pass over those 12 digits
followed by the just-computed first check digit. -/
def cnpjSpecValid (cnpj : String) : Prop :=
  let c := CNPJValidator.cnpj_digits cnpj
  c.length = 14 ∧
  c ≠ List.replicate 14 (c.headD ' ') ∧
  (let d1 := CNPJValidator.calc_digit (c.take 12) CNPJValidator.weights1
   let d2 := CNPJValidator.calc_digit
       (c.take 12 ++ [CNPJValidator.digitChar d1]) CNPJValidator.weights2
   c.drop 12 = [CNPJValidator.digitChar d1, CNPJValidator.digitChar d2])

instance (cnpj : String) : Decidable (cnpjSpecValid cnpj) := by
  unfold cnpjSpecValid
  exact instDecidableAnd

/-- `utils.workflow_hash`'s composition string
`f"bl={bl_hash}|invoice={invoice_hash}|packing={packing_hash or ''}"`.
Python's `or` maps both `None` and the empty string to `''`. -/
def workflowBase (bl_hash invoice_hash : String) (packing_hash : Option String) :
    String :=
  "bl=" ++ bl_hash ++ "|invoice=" ++ invoice_hash ++ "|packing=" ++
    (match packing_hash with
     | none => ""
     | some s => if s = "" then "" else s)

/-- `utils.workflow_hash`.  The SHA-256 digest is an external primitive
(`hashlib`), taken as the function parameter `digest`. -/
def workflow_hash (digest : String → String) (bl_hash invoice_hash : String)
    (packing_hash : Option String) : String :=
  digest (workflowBase bl_hash invoice_hash packing_hash)

/-- The process-wide cache configuration of `database.py`
(`CACHE_ENABLED`, `TTL_DAYS`); time is counted in days. -/
structure Config where
  enabled : Bool
  ttlDays : ℕ
  deriving DecidableEq, Repr

/-- A row of the `document_cache` table (unique on
`(file_hash, doc_type)`). -/
structure DocEntry where
  file_hash : String
  doc_type : String
  filename : String
  extracted : DocumentData
  created_at : ℕ
  deriving DecidableEq, Repr

/-- The workflow report assembled by `api_server._build_report`.  The
`success_rate` percentage string is modelled by the underlying ratio. -/
structure WorkflowReport where
  timestamp : ℕ
  documents_processed : List String
  extracted_data : List (String × DocumentData)
  cnpj_validation : Option String
  comparison : DocumentComparator.Report
  total_checks : ℕ
  passed : ℕ
  failed : ℕ
  success_rate : Option ℚ
  deriving DecidableEq, Repr

/-- A row of the `workflow_cache` table (unique on `workflow_hash`). -/
structure WfEntry where
  workflow_hash : String
  bl_hash : String
  invoice_hash : String
  packing_hash : Option String
  report : WorkflowReport
  created_at : ℕ
  last_access : ℕ
  deriving DecidableEq, Repr

/-- The two SQLite tables of `database.py`. -/
structure Store where
  docs : List DocEntry
  wfs : List WfEntry
  deriving DecidableEq, Repr

/-- `database._is_expired`: never expired when `TTL_DAYS` is 0, otherwise
expired once `now > created_at + ttl`. -/
def is_expired (cfg : Config) (created_at now : ℕ) : Bool :=
  if cfg.ttlDays = 0 then false else now > created_at + cfg.ttlDays

/-- `database.get_document_cache`: absent when the cache is disabled, the
key is missing, or the entry is expired. -/
def get_document_cache (cfg : Config) (file_hash doc_type : String) (now : ℕ)
    (st : Store) : Option DocumentData :=
  if !cfg.enabled then none
  else
    match st.docs.find? (fun e => e.file_hash = file_hash ∧ e.doc_type = doc_type) with
    | none => none
    | some e =>
        if cfg.ttlDays ≠ 0 ∧ is_expired cfg e.created_at now then none
        else some e.extracted

/-- `database.save_document_cache`: `INSERT OR REPLACE` keyed on
`(file_hash, doc_type)`; a no-op when the cache is disabled. -/
def save_document_cache (cfg : Config) (file_hash doc_type filename : String)
    (extracted : DocumentData) (now : ℕ) (st : Store) : Store :=
  if !cfg.enabled then st
  else
    { st with docs := ⟨file_hash, doc_type, filename, extracted, now⟩ ::
        st.docs.filter (fun e => ¬(e.file_hash = file_hash ∧ e.doc_type = doc_type)) }

/-- `database.delete_document_cache`: delete by `(hash, role)` or, when no
role is given, all roles of the hash; a no-op when the cache is
disabled. -/
def delete_document_cache (cfg : Config) (file_hash : String)
    (doc_type : Option String) (st : Store) : Store :=
  if !cfg.enabled then st
  else
    match doc_type with
    | some dt =>
        { st with
          docs := st.docs.filter (fun e => ¬(e.file_hash = file_hash ∧ e.doc_type = dt)) }
    | none => { st with docs := st.docs.filter (fun e => e.file_hash ≠ file_hash) }

/-- `database.get_workflow_cache`: returns the stored report and, on a
hit, refreshes `last_access` (and only `last_access`); the state is
untouched on a miss or an expired entry. -/
def get_workflow_cache (cfg : Config) (wf_hash : String) (now : ℕ)
    (st : Store) : Option WorkflowReport × Store :=
  if !cfg.enabled then (none, st)
  else
    match st.wfs.find? (fun e => e.workflow_hash = wf_hash) with
    | none => (none, st)
    | some e =>
        if cfg.ttlDays ≠ 0 ∧ is_expired cfg e.created_at now then (none, st)
        else
          (some e.report,
           { st with wfs := st.wfs.map fun x =>
               if x.workflow_hash = wf_hash then { x with last_access := now }
               else x })

/-- `database.save_workflow_cache`: `INSERT OR REPLACE` keyed on
`workflow_hash`, setting both `created_at` and `last_access` to now; a
no-op when the cache is disabled. -/
def save_workflow_cache (cfg : Config) (wf_hash bl_hash invoice_hash : String)
    (packing_hash : Option String) (report : WorkflowReport) (now : ℕ)
    (st : Store) : Store :=
  if !cfg.enabled then st
  else
    { st with wfs := ⟨wf_hash, bl_hash, invoice_hash, packing_hash, report, now, now⟩ ::
        st.wfs.filter (fun e => e.workflow_hash ≠ wf_hash) }

/-- `database.delete_workflow_cache`; a no-op when the cache is
disabled. -/
def delete_workflow_cache (cfg : Config) (wf_hash : String) (st : Store) : Store :=
  if !cfg.enabled then st
  else { st with wfs := st.wfs.filter (fun e => e.workflow_hash ≠ wf_hash) }

/-- `database.delete_document_cache_by_hash`.  Unlike every other cache
function, the source performs the `DELETE` without consulting
`CACHE_ENABLED`; the unused `_cfg` parameter records that. -/
def delete_document_cache_by_hash (_cfg : Config) (file_hash : String)
    (st : Store) : Store :=
  { st with docs := st.docs.filter (fun e => e.file_hash ≠ file_hash) }

/-- `api_server._as_dict`: the serialized record drops `raw_text` (its
keys are the eleven other fields), so re-reading the cached dict yields
the record with `raw_text` reset to its default. -/
def as_dict (d : DocumentData) : DocumentData := { d with raw_text := none }

/-- `api_server._extract_with_cache`: consult the document cache unless
forced, otherwise run the extractor oracle and store its serialized
record.  Returns the record, the new store and the number of extractor
invocations. -/
def extract_with_cache (cfg : Config) (oracle : String → String → DocumentData)
    (file_hash doc_type filename : String) (force : Bool) (now : ℕ)
    (st : Store) : DocumentData × Store × ℕ :=
  let run : DocumentData × Store × ℕ :=
    let data_dict := as_dict (oracle file_hash doc_type)
    (data_dict, save_document_cache cfg file_hash doc_type filename data_dict now st, 1)
  if !force then
    match get_document_cache cfg file_hash doc_type now st with
    | some cached => (cached, st, 0)
    | none => run
  else run

/-- The first truthy CNPJ out of the BL and Invoice records
(`extracted_data.get("bl", {}).get("cnpj") or ...get("invoice", {}).get("cnpj")`). -/
def firstCnpj (bl invoice : DocumentData) : Option String :=
  match bl.cnpj with
  | some c => if c = "" then (match invoice.cnpj with
      | some c2 => if c2 = "" then none else some c2
      | none => none) else some c
  | none =>
      match invoice.cnpj with
      | some c2 => if c2 = "" then none else some c2
      | none => none

/-- `api_server._build_report`: reassemble DocumentData values from the
cached dicts, run the comparator and wrap its counts; the online CNPJ
registry call is the external `validate_online` oracle.  `none` models an
exception escaping `_build_report` (a comparator crash). -/
def build_report (validate_online : String → String)
    (docNames : List String) (bl invoice : DocumentData)
    (packing : Option DocumentData) (now : ℕ) : Option WorkflowReport :=
  let cnpj_validation := (firstCnpj bl invoice).map validate_online
  match DocumentComparator.compare bl invoice packing with
  | none => none
  | some comparison =>
      some
        { timestamp := now
          documents_processed := docNames
          extracted_data :=
            [("bl", bl), ("invoice", invoice)] ++
              (match packing with | some p => [("packing", p)] | none => [])
          cnpj_validation := cnpj_validation
          comparison := comparison
          total_checks := comparison.total_checks
          passed := comparison.passed
          failed := comparison.failed
          success_rate :=
            if comparison.total_checks ≠ 0 then
              some ((comparison.passed : ℚ) / (comparison.total_checks : ℚ))
            else none }

/-- The outcome of one `process_complete` request: the report served, the
`"cached"` flag of the response, the store afterwards and how many times
the external extractor ran. -/
structure ProcOut where
  report : WorkflowReport
  cached : Bool
  store : Store
  extractorCalls : ℕ
  deriving DecidableEq, Repr

/-- `api_server.process_complete` (`POST /api/process-complete`): hash the
uploaded files, consult the workflow cache unless forced, otherwise delete
the stale workflow entry (when forced), extract each document through the
document cache, build the report and store it.  Files are identified by
paths; `fileHash` is the content digest `utils.sha256_file` and `digest`
the digest inside `utils.workflow_hash`.  `none` models the 500 error
path. -/
def process_complete (cfg : Config) (digest fileHash : String → String)
    (oracle : String → String → DocumentData) (validate_online : String → String)
    (blPath invPath : String) (pkPath : Option String) (force : Bool)
    (now : ℕ) (st : Store) : Option ProcOut :=
  let bl_h := fileHash blPath
  let inv_h := fileHash invPath
  let pk_h := pkPath.map fileHash
  let wf_h := workflow_hash digest bl_h inv_h pk_h
  let afterHit : Option ProcOut :=
    if !force then
      match get_workflow_cache cfg wf_h now st with
      | (some cached, st') => some ⟨cached, true, st', 0⟩
      | (none, _) => none
    else none
  match afterHit with
  | some out => some out
  | none =>
      let st0 := if force then delete_workflow_cache cfg wf_h st else st
      let (bl_d, st1, c1) := extract_with_cache cfg oracle bl_h "bl" blPath force now st0
      let (inv_d, st2, c2) := extract_with_cache cfg oracle inv_h "invoice" invPath force now st1
      let (pk_d, st3, c3) :
          Option DocumentData × Store × ℕ :=
        match pkPath with
        | some p =>
            let (d, st', c) := extract_with_cache cfg oracle (fileHash p) "packing" p force now st2
            (some d, st', c)
        | none => (none, st2, 0)
      let docNames := ["bl", "invoice"] ++ (match pkPath with | some _ => ["packing"] | none => [])
      match build_report validate_online docNames bl_d inv_d pk_d now with
      | none => none
      | some report =>
          let st4 := save_workflow_cache cfg wf_h bl_h inv_h pk_h report now st3
          some ⟨report, false, st4, c1 + c2 + c3⟩

/-- The outcome of one Gemini API round trip: a parsed JSON field set, or
any raised/absorbed failure with its message. -/
inductive GeminiResult where
  | parsed (shipper_name consignee cnpj localization ncm_4d ncm_8d : Option String)
      (packages : Option ℤ) (gross_weight cbm : Option ℚ) (text_content : String)
  | failure (msg : String)
  deriving DecidableEq, Repr

/-- The external collaborators of `AIDocumentExtractor.extract_from_file`:
the two Gemini entry points, the PyPDF2 text pass (failures are absorbed
to `""` in the source) and the openpyxl workbook read (`Except` models the
raised exception). -/
structure ExtractOracle where
  vision : GeminiResult
  text : GeminiResult
  pdfText : String
  excelRead : Except String String
  deriving Repr

/-- Python truthiness of `data.get(...)` used in the
`int(...) if data.get('packages') else None` style conversions. -/
def truthyInt : Option ℤ → Option ℤ
  | some n => if n = 0 then none else some n
  | none => none

def truthyQ : Option ℚ → Option ℚ
  | some q => if q = 0 then none else some q
  | none => none

namespace AIDocumentExtractor

/-- `AIDocumentExtractor._call_gemini_vision`: on a parsed reply, the field
record with `confidence = 0.9` and a `raw_text` sample; on any failure, a
record whose only set fields are the error marker and `confidence = 0.0`. -/
def call_gemini_vision (o : ExtractOracle) : DocumentData :=
  match o.vision with
  | .parsed sn co cn lo n4 n8 pk gw cb txt =>
      { shipper_name := sn, consignee := co, cnpj := cn, localization := lo
        ncm_4d := n4, ncm_8d := n8
        packages := truthyInt pk, gross_weight := truthyQ gw, cbm := truthyQ cb
        raw_text := some (String.mk (txt.toList.take 200))
        confidence := some (9/10) }
  | .failure msg =>
      { extraction_method := some ("Gemini AI Error: " ++ msg)
        confidence := some 0 }

/-- `AIDocumentExtractor._call_gemini_text`: on a parsed reply,
`confidence = 0.85`; on any failure, only the `Error:` marker is set —
`confidence` stays null. -/
def call_gemini_text (o : ExtractOracle) : DocumentData :=
  match o.text with
  | .parsed sn co cn lo n4 n8 pk gw cb _ =>
      { shipper_name := sn, consignee := co, cnpj := cn, localization := lo
        ncm_4d := n4, ncm_8d := n8
        packages := truthyInt pk, gross_weight := truthyQ gw, cbm := truthyQ cb
        confidence := some (85/100) }
  | .failure msg =>
      { extraction_method := some ("Error: " ++ msg) }

/-- `AIDocumentExtractor._extract_from_pdf`: call Gemini Vision, then
overwrite `extraction_method` with the method label — also on the failure
record. -/
def extract_from_pdf (o : ExtractOracle) : DocumentData :=
  { call_gemini_vision o with extraction_method := some "Gemini Hybrid PDF" }

/-- `AIDocumentExtractor._extract_from_image`. -/
def extract_from_image (o : ExtractOracle) : DocumentData :=
  { call_gemini_vision o with extraction_method := some "Gemini AI Vision (Image)" }

/-- `AIDocumentExtractor._extract_from_excel`: a failing workbook read is
absorbed into an `Excel Error:` record (with null confidence); otherwise
the text call's result gets the method label and a `raw_text` sample. -/
def extract_from_excel (o : ExtractOracle) : DocumentData :=
  match o.excelRead with
  | .error msg => { extraction_method := some ("Excel Error: " ++ msg) }
  | .ok text =>
      { call_gemini_text o with
        extraction_method := some "Gemini AI Text (Excel)"
        raw_text := some (String.mk (text.toList.take 500)) }

/-- `AIDocumentExtractor.extract_from_file`: raises `FileNotFoundError`
for a missing path and `ValueError` for an unsupported extension
(modelled by `Except.error`); otherwise dispatches on the lower-cased
suffix. -/
def extract_from_file (pathExists : Bool) (suffix : String) (o : ExtractOracle) :
    Except String DocumentData :=
  if !pathExists then .error "FileNotFoundError"
  else
    let file_ext := strLower suffix
    if file_ext = ".pdf" then .ok (extract_from_pdf o)
    else if file_ext = ".xlsx" ∨ file_ext = ".xls" then .ok (extract_from_excel o)
    else if file_ext = ".jpg" ∨ file_ext = ".jpeg" ∨ file_ext = ".png" then
      .ok (extract_from_image o)
    else .error ("Unsupported file type: " ++ file_ext)

end AIDocumentExtractor

/-- All nine data fields of a record are null. -/
def allDataNull (d : DocumentData) : Prop :=
  d.shipper_name = none ∧ d.consignee = none ∧ d.cnpj = none ∧
  d.localization = none ∧ d.ncm_4d = none ∧ d.ncm_8d = none ∧
  d.packages = none ∧ d.gross_weight = none ∧ d.cbm = none

instance (d : DocumentData) : Decidable (allDataNull d) := by
  unfold allDataNull
  infer_instance

instance {ε α : Type} [DecidableEq ε] [DecidableEq α] : DecidableEq (Except ε α) :=
  fun a b =>
    match a, b with
    | .ok x, .ok y =>
        if h : x = y then isTrue (by rw [h]) else isFalse (by simp [h])
    | .ok _, .error _ => isFalse (by simp)
    | .error _, .ok _ => isFalse (by simp)
    | .error x, .error y =>
        if h : x = y then isTrue (by rw [h]) else isFalse (by simp [h])

/-- The configuration with the global cache switch off (`CACHE_ENABLED =
false`, default TTL of 90 days). -/
def cfgOff : Config := ⟨false, 90⟩

/-- A store holding one document-cache row for hash `"h"`. -/
def storeH : Store := ⟨[⟨"h", "bl", "f.pdf", {}, 0⟩], []⟩

/-- An oracle where every external extraction collaborator fails. -/
def failOracle : ExtractOracle :=
  ⟨.failure "api down", .failure "api down", "", .error "bad zip"⟩

/-- A concrete store for the cache-frame witnesses: one workflow row under
key `"wf"` with an empty report, written at time 3. -/
def wfStore : Store :=
  ⟨[], [⟨"wf", "a", "b", none, ⟨0, [], [], none, ⟨0, 0, 0, 0, []⟩, 0, 0, 0, none⟩, 3, 3⟩]⟩

/-- The status the loop body records for a non-skipped comparison. -/
def DocumentComparator.statusOf (c : Comparison) : String :=
  if DocumentComparator.isNcmKey c.key &&
      !DocumentComparator.keysAreBLInvoice (collect c) then "mismatch"
  else
    match DocumentComparator.matchResult c.ctype (collect c) with
    | some true => "match"
    | _ => "mismatch"

/-- The detail record the loop body appends for a comparison: nothing for
a skipped field, otherwise the field name, the collected role/value map
and the resulting status. -/
def DocumentComparator.detailOf (c : Comparison) :
    Option DocumentComparator.Detail :=
  if collect c = [] then none
  else some ⟨c.field, collect c, DocumentComparator.statusOf c⟩

/-- The BL record of the C4 witness run. -/
def blW : DocumentData := { shipper_name := some "ACME  Ltda", ncm_4d := some "8438" }

/-- The Invoice record of the C4 witness run. -/
def invW : DocumentData := { shipper_name := some "acme  ltda" }

/-- The report of the C4 witness run: shipper matches after
normalization, the one-sided NCM code is an automatic mismatch, the other
six fields are skipped. -/
def reportW : DocumentComparator.Report :=
  ⟨2, 1, 1, 0,
   [⟨"Shipper Name", [("BL", .str "ACME  Ltda"), ("Invoice", .str "acme  ltda")],
     "match"⟩,
    ⟨"NCM 4 Digits", [("BL", .str "8438")], "mismatch"⟩]⟩

/-- The numeric values the comparator extracts for one comparison (what
`_compare_numeric` calls `nums`). -/
def collectNums (c : Comparison) : List ℚ :=
  ((collect c).map Prod.snd).filterMap Value.toQ

/-- The arithmetic mean `sum(nums) / len(nums)`. -/
def listMean (l : List ℚ) : ℚ := l.sum / (l.length : ℚ)

/-- Modelled from the spec (§4.5 and claim C1): a tolerance-bearing
numeric field matches iff every collected value's relative deviation from
the arithmetic mean of the collected values is at most the tolerance
(relative deviation being the nonnegative quantity `|n - mean| / |mean|`). -/
def specNumericMatch (nums : List ℚ) (tolerance : ℚ) : Prop :=
  nums ≠ [] ∧ ∀ n ∈ nums, |n - listMean nums| / |listMean nums| ≤ tolerance

/-- Concrete collaborators for the C5 witness run: cache enabled with no
expiry, identity digests, an extractor returning an empty record. -/
def cfgW5 : Config := ⟨true, 0⟩

def digestW5 : String → String := fun s => s

def oracleW5 : String → String → DocumentData := fun _ _ => { }

def voW5 : String → String := fun _ => "registry ok"

/-- The outcome of the first C5 witness run (a cache-miss run over files
`"b"` and `"i"`). -/
def out1W5 : ProcOut :=
  (process_complete cfgW5 digestW5 digestW5 oracleW5 voW5 "b" "i" none false 0
    ⟨[], []⟩).getD ⟨⟨0, [], [], none, ⟨0, 0, 0, 0, []⟩, 0, 0, 0, none⟩, false, ⟨[], []⟩, 0⟩

/-- C9: the workflow key cannot tell an empty packing hash from an absent
one — both collapse the composition string to `"bl=<A>|invoice=<B>|packing="`
before digesting. -/
theorem C9_workflow_hash_empty_packing (digest : String → String) (A B : String) :
    workflow_hash digest A B (some "") = workflow_hash digest A B none ∧
    workflowBase A B (some "") = "bl=" ++ A ++ "|invoice=" ++ B ++ "|packing=" := by
  refine ⟨rfl, ?_⟩
  simp [workflowBase, String.append_empty]

/-- C6: with the cache switch off, `get` reports absent and `put` /
`delete` / `delete_workflow` are no-ops — but `delete_document_cache_by_hash`
is missing the `CACHE_ENABLED` guard and still deletes the rows for the
hash, so the claimed no-op property fails on it. -/
theorem C6_disabled_switch_delete_by_hash_mutates :
    delete_document_cache_by_hash cfgOff "h" storeH = ⟨[], []⟩ ∧
    delete_document_cache_by_hash cfgOff "h" storeH ≠ storeH ∧
    get_document_cache cfgOff "h" "bl" 0 storeH = none ∧
    save_document_cache cfgOff "h" "bl" "f.pdf" { } 0 storeH = storeH ∧
    delete_document_cache cfgOff "h" none storeH = storeH ∧
    delete_document_cache cfgOff "h" (some "bl") storeH = storeH ∧
    delete_workflow_cache cfgOff "h" storeH = storeH ∧
    (get_workflow_cache cfgOff "h" 0 storeH).1 = none := by
  decide

/-- C7: the extractor boundary is leaky.  A failing Excel read yields a
record whose `confidence` is null (not 0.0); an unsupported extension and
a missing file raise straight past `extract_from_file`; and on the PDF
path the wrapper overwrites `extraction_method`, destroying the error
description the claim requires. -/
theorem C7_extractor_boundary_violations :
    AIDocumentExtractor.extract_from_file true ".xlsx" failOracle =
      .ok { extraction_method := some "Excel Error: bad zip" } ∧
    (AIDocumentExtractor.extract_from_file true ".xlsx" failOracle).toOption.map
      DocumentData.confidence = some none ∧
    AIDocumentExtractor.extract_from_file true ".txt" failOracle =
      .error "Unsupported file type: .txt" ∧
    AIDocumentExtractor.extract_from_file false ".pdf" failOracle =
      .error "FileNotFoundError" ∧
    AIDocumentExtractor.extract_from_file true ".pdf" failOracle =
      .ok { extraction_method := some "Gemini Hybrid PDF", confidence := some 0 } := by
  decide

/-- C8: on a workflow-cache hit (entry found, cache enabled, TTL not
elapsed) `get_workflow_cache` serves the stored report and rewrites the
store so that only the matching entry's `last_access` becomes `now`
(`created_at` and the report are copied unchanged); whenever it reports
absent — miss, expired entry or disabled cache — the store is returned
untouched. -/
theorem C8_get_workflow_cache_frame (cfg : Config) (key : String) (now : ℕ)
    (st : Store) :
    (∀ e : WfEntry, cfg.enabled = true →
      st.wfs.find? (fun x => x.workflow_hash = key) = some e →
      ¬(cfg.ttlDays ≠ 0 ∧ is_expired cfg e.created_at now) →
      get_workflow_cache cfg key now st =
        (some e.report,
         { st with wfs := st.wfs.map fun x =>
             if x.workflow_hash = key then { x with last_access := now }
             else x })) ∧
    ((get_workflow_cache cfg key now st).1 = none →
      (get_workflow_cache cfg key now st).2 = st) := by
  constructor
  · intro e hen hfind hfresh
    simp only [get_workflow_cache, hen, Bool.not_true, Bool.false_eq_true,
      if_false, hfind, hfresh]
  · by_cases hen : cfg.enabled
    · cases hfind : st.wfs.find? (fun x => x.workflow_hash = key) with
      | none => intro _; simp [get_workflow_cache, hen, hfind]
      | some e =>
          by_cases hexp : cfg.ttlDays ≠ 0 ∧ is_expired cfg e.created_at now
          · intro _; simp [get_workflow_cache, hen, hfind, hexp]
          · intro hnone
            exfalso
            simp [get_workflow_cache, hen, hfind, hexp] at hnone
    · intro _
      simp only [Bool.not_eq_true] at hen
      simp [get_workflow_cache, hen]

theorem C8_get_workflow_cache_frame_witness :
    (⟨true, 90⟩ : Config).enabled = true ∧
    wfStore.wfs.find? (fun x => x.workflow_hash = "wf") = some
      ⟨"wf", "a", "b", none, ⟨0, [], [], none, ⟨0, 0, 0, 0, []⟩, 0, 0, 0, none⟩, 3, 3⟩ ∧
    ¬((⟨true, 90⟩ : Config).ttlDays ≠ 0 ∧ is_expired ⟨true, 90⟩ 3 10) ∧
    get_workflow_cache ⟨true, 90⟩ "wf" 10 wfStore =
      (some ⟨0, [], [], none, ⟨0, 0, 0, 0, []⟩, 0, 0, 0, none⟩,
       ⟨[], [⟨"wf", "a", "b", none, ⟨0, [], [], none, ⟨0, 0, 0, 0, []⟩, 0, 0, 0, none⟩, 3, 10⟩]⟩) := by
  refine ⟨rfl, by decide, by decide, ?_⟩
  have h := (C8_get_workflow_cache_frame ⟨true, 90⟩ "wf" 10 wfStore).1
    ⟨"wf", "a", "b", none, ⟨0, [], [], none, ⟨0, 0, 0, 0, []⟩, 0, 0, 0, none⟩, 3, 3⟩
    rfl (by decide) (by decide)
  rw [h]
  decide

/-- C2: the classification-code fields (`ncm_4d`, `ncm_8d`) compare only
BL and Invoice; a field with both values null is skipped (the loop state
is unchanged, so `total_checks` is not incremented); a field present in
exactly one of the two is an automatic mismatch with `total_checks`
incremented; and when both are present the field is decided by the text
comparison.  The first two conjuncts locate the two NCM comparisons
inside `DocumentComparator.compare`'s comparison list for every packing
argument. -/
theorem C2_ncm_membership_rule (bl invoice : DocumentData)
    (r : DocumentComparator.Report) :
    (∀ pk, (comparisons bl invoice pk).get? 3 = some (ncm4Comp bl invoice)) ∧
    (∀ pk, (comparisons bl invoice pk).get? 4 = some (ncm8Comp bl invoice)) ∧
    (bl.ncm_4d = none → invoice.ncm_4d = none →
      DocumentComparator.step r (ncm4Comp bl invoice) = some r) ∧
    (∀ a, bl.ncm_4d = some a → invoice.ncm_4d = none →
      DocumentComparator.step r (ncm4Comp bl invoice) =
        some { r with
          total_checks := r.total_checks + 1
          failed := r.failed + 1
          details := r.details ++ [⟨"NCM 4 Digits", [("BL", .str a)], "mismatch"⟩] }) ∧
    (∀ b, bl.ncm_4d = none → invoice.ncm_4d = some b →
      DocumentComparator.step r (ncm4Comp bl invoice) =
        some { r with
          total_checks := r.total_checks + 1
          failed := r.failed + 1
          details := r.details ++ [⟨"NCM 4 Digits", [("Invoice", .str b)], "mismatch"⟩] }) ∧
    (∀ a b, bl.ncm_4d = some a → invoice.ncm_4d = some b →
      DocumentComparator.step r (ncm4Comp bl invoice) =
        (DocumentComparator.compare_text [("BL", .str a), ("Invoice", .str b)]).map
          (fun m =>
            if m then
              { r with
                total_checks := r.total_checks + 1
                passed := r.passed + 1
                details := r.details ++
                  [⟨"NCM 4 Digits", [("BL", .str a), ("Invoice", .str b)], "match"⟩] }
            else
              { r with
                total_checks := r.total_checks + 1
                failed := r.failed + 1
                details := r.details ++
                  [⟨"NCM 4 Digits", [("BL", .str a), ("Invoice", .str b)], "mismatch"⟩] })) ∧
    (bl.ncm_8d = none → invoice.ncm_8d = none →
      DocumentComparator.step r (ncm8Comp bl invoice) = some r) ∧
    (∀ a, bl.ncm_8d = some a → invoice.ncm_8d = none →
      DocumentComparator.step r (ncm8Comp bl invoice) =
        some { r with
          total_checks := r.total_checks + 1
          failed := r.failed + 1
          details := r.details ++ [⟨"NCM 8 Digits", [("BL", .str a)], "mismatch"⟩] }) ∧
    (∀ b, bl.ncm_8d = none → invoice.ncm_8d = some b →
      DocumentComparator.step r (ncm8Comp bl invoice) =
        some { r with
          total_checks := r.total_checks + 1
          failed := r.failed + 1
          details := r.details ++ [⟨"NCM 8 Digits", [("Invoice", .str b)], "mismatch"⟩] }) ∧
    (∀ a b, bl.ncm_8d = some a → invoice.ncm_8d = some b →
      DocumentComparator.step r (ncm8Comp bl invoice) =
        (DocumentComparator.compare_text [("BL", .str a), ("Invoice", .str b)]).map
          (fun m =>
            if m then
              { r with
                total_checks := r.total_checks + 1
                passed := r.passed + 1
                details := r.details ++
                  [⟨"NCM 8 Digits", [("BL", .str a), ("Invoice", .str b)], "match"⟩] }
            else
              { r with
                total_checks := r.total_checks + 1
                failed := r.failed + 1
                details := r.details ++
                  [⟨"NCM 8 Digits", [("BL", .str a), ("Invoice", .str b)], "mismatch"⟩] })) := by
  refine ⟨fun pk => rfl, fun pk => rfl, ?_, ?_, ?_, ?_, ?_, ?_, ?_, ?_⟩
  · intro h1 h2
    simp [DocumentComparator.step, collect, ncm4Comp, docsBI, getVal, h1, h2, List.filterMap_cons, Function.comp]
  · intro a h1 h2
    simp [DocumentComparator.step, collect, ncm4Comp, docsBI, getVal, h1, h2,
      DocumentComparator.isNcmKey, DocumentComparator.keysAreBLInvoice,
      DocumentComparator.matchResult, List.filterMap_cons, Function.comp]
  · intro b h1 h2
    simp [DocumentComparator.step, collect, ncm4Comp, docsBI, getVal, h1, h2,
      DocumentComparator.isNcmKey, DocumentComparator.keysAreBLInvoice,
      DocumentComparator.matchResult, List.filterMap_cons, Function.comp]
  · intro a b h1 h2
    simp only [DocumentComparator.step, collect, ncm4Comp, docsBI, getVal, h1, h2,
      DocumentComparator.isNcmKey, DocumentComparator.keysAreBLInvoice,
      DocumentComparator.matchResult, List.filterMap_cons, List.filterMap_nil,
      Option.map_some, Option.map_none, Function.comp, List.map_cons, List.map_nil,
      List.contains_cons, List.all_cons, List.all_nil]
    norm_num
    cases hm : DocumentComparator.compare_text [("BL", .str a), ("Invoice", .str b)] with
    | none => simp [hm]
    | some m => cases m <;> simp [hm]
  · intro h1 h2
    simp [DocumentComparator.step, collect, ncm8Comp, docsBI, getVal, h1, h2, List.filterMap_cons, Function.comp]
  · intro a h1 h2
    simp [DocumentComparator.step, collect, ncm8Comp, docsBI, getVal, h1, h2,
      DocumentComparator.isNcmKey, DocumentComparator.keysAreBLInvoice,
      DocumentComparator.matchResult, List.filterMap_cons, Function.comp]
  · intro b h1 h2
    simp [DocumentComparator.step, collect, ncm8Comp, docsBI, getVal, h1, h2,
      DocumentComparator.isNcmKey, DocumentComparator.keysAreBLInvoice,
      DocumentComparator.matchResult, List.filterMap_cons, Function.comp]
  · intro a b h1 h2
    simp only [DocumentComparator.step, collect, ncm8Comp, docsBI, getVal, h1, h2,
      DocumentComparator.isNcmKey, DocumentComparator.keysAreBLInvoice,
      DocumentComparator.matchResult, List.filterMap_cons, List.filterMap_nil,
      Option.map_some, Option.map_none, Function.comp, List.map_cons, List.map_nil,
      List.contains_cons, List.all_cons, List.all_nil]
    norm_num
    cases hm : DocumentComparator.compare_text [("BL", .str a), ("Invoice", .str b)] with
    | none => simp [hm]
    | some m => cases m <;> simp [hm]

theorem C2_ncm_membership_rule_witness :
    ((({ ncm_4d := some "8438" } : DocumentData).ncm_4d = some "8438") ∧
      (({ } : DocumentData).ncm_4d = none)) ∧
    DocumentComparator.step ⟨0, 0, 0, 0, []⟩
      (ncm4Comp { ncm_4d := some "8438" } { }) =
      some ⟨1, 0, 1, 0, [⟨"NCM 4 Digits", [("BL", .str "8438")], "mismatch"⟩]⟩ := by
  refine ⟨⟨rfl, rfl⟩, ?_⟩
  have h := (C2_ncm_membership_rule { ncm_4d := some "8438" } { }
    ⟨0, 0, 0, 0, []⟩).2.2.2.1 "8438" rfl rfl
  rw [h]
  rfl

/-- Both check-digit passes produce a single decimal digit: the remainder
rule maps `remainder < 2` to `0` and anything else to `11 - remainder ∈
[1, 9]`. -/
theorem calc_digit_le_nine (part : List Char) (w : List ℕ) :
    CNPJValidator.calc_digit part w ≤ 9 := by
  unfold CNPJValidator.calc_digit
  have h : (((part.zip w).map fun dw => (dw.1.toNat - 48) * dw.2)).sum % 11 < 11 :=
    Nat.mod_lt _ (by norm_num)
  simp only []
  split <;> omega

/-- `f"{d}"` of a single decimal digit is its one character. -/
theorem toDigits_single (d : ℕ) (h : d ≤ 9) :
    Nat.toDigits 10 d = [CNPJValidator.digitChar d] := by
  interval_cases d <;> rfl

/-- C3: `CNPJValidator.validate_format` accepts exactly the strings whose
digit content is 14 long, is not one repeated digit, and ends in the two
check digits computed from the first 12 digits by the two weighted-sum
passes (the source feeds `cnpj[:13]` to the second pass, but acceptance
forces digit 13 to equal the first check digit, so the two formulations
agree).  The reference CNPJ `11222333000181` is accepted, and changing
either check digit of it to any other digit is rejected. -/
theorem C3_cnpj_checksum :
    (∀ s, CNPJValidator.validate_format s = true ↔ cnpjSpecValid s) ∧
    CNPJValidator.validate_format "11222333000181" = true ∧
    (∀ d : Fin 10,
      ((d : ℕ) ≠ 8 →
        CNPJValidator.validate_format
          (String.mk (("11222333000181".toList).set 12 (CNPJValidator.digitChar d))) =
          false) ∧
      ((d : ℕ) ≠ 1 →
        CNPJValidator.validate_format
          (String.mk (("11222333000181".toList).set 13 (CNPJValidator.digitChar d))) =
          false)) := by
  refine ⟨?_, by decide, by decide⟩
  intro s
  simp only [CNPJValidator.validate_format, cnpjSpecValid]
  generalize CNPJValidator.cnpj_digits s = c
  by_cases hlen : c.length = 14
  · cases c with
    | nil => simp at hlen
    | cons c0 rest =>
        by_cases hall : c0 :: rest = List.replicate 14 c0
        · simp [hlen, hall]
        · simp only [hlen, ne_eq, not_true_eq_false, if_false, hall,
            List.headD_cons, decide_eq_true_iff, true_and, not_false_eq_true]
          have h1le := calc_digit_le_nine ((c0 :: rest).take 12) CNPJValidator.weights1
          rw [toDigits_single _ h1le,
            toDigits_single _ (calc_digit_le_nine ((c0 :: rest).take 13)
              CNPJValidator.weights2), List.singleton_append]
          set d1 := CNPJValidator.calc_digit ((c0 :: rest).take 12)
            CNPJValidator.weights1 with hd1
          constructor
          · intro h
            have htake : (c0 :: rest).take 13 =
                (c0 :: rest).take 12 ++ [CNPJValidator.digitChar d1] := by
              have := List.take_add (c0 :: rest) 12 1
              rw [show (12 + 1 : ℕ) = 13 from rfl] at this
              rw [this, h]
              rfl
            rw [htake] at h
            exact h
          · intro h
            have htake : (c0 :: rest).take 13 =
                (c0 :: rest).take 12 ++ [CNPJValidator.digitChar d1] := by
              have := List.take_add (c0 :: rest) 12 1
              rw [show (12 + 1 : ℕ) = 13 from rfl] at this
              rw [this, h]
              rfl
            rw [htake]
            exact h
  · simp [hlen]

theorem C3_cnpj_checksum_witness :
    (((0 : Fin 10) : ℕ) ≠ 8 ∧
      CNPJValidator.validate_format
        (String.mk (("11222333000181".toList).set 12 (CNPJValidator.digitChar 0))) =
        false) ∧
    (CNPJValidator.validate_format "11.222.333/0001-81" = true ↔
      cnpjSpecValid "11.222.333/0001-81") := by
  exact ⟨⟨by decide, (C3_cnpj_checksum.2.2 0).1 (by decide)⟩,
    C3_cnpj_checksum.1 "11.222.333/0001-81"⟩

theorem statusOf_cases (c : Comparison) :
    DocumentComparator.statusOf c = "match" ∨
    DocumentComparator.statusOf c = "mismatch" := by
  unfold DocumentComparator.statusOf
  split
  · exact Or.inr rfl
  · split
    · exact Or.inl rfl
    · exact Or.inr rfl

/-- One loop iteration appends exactly `detailOf c`, keeps `warnings`, and
bumps `total_checks` and exactly one of `passed`/`failed` by the number of
appended details. -/
theorem step_out (r r' : DocumentComparator.Report) (c : Comparison)
    (h : DocumentComparator.step r c = some r') :
    r'.details = r.details ++ (DocumentComparator.detailOf c).toList ∧
    r'.warnings = r.warnings ∧
    r'.total_checks = r.total_checks + (DocumentComparator.detailOf c).toList.length ∧
    r'.passed + r'.failed =
      r.passed + r.failed + (DocumentComparator.detailOf c).toList.length := by
  unfold DocumentComparator.step at h
  unfold DocumentComparator.detailOf DocumentComparator.statusOf
  by_cases hempty : collect c = []
  · rw [if_pos hempty] at h
    rw [if_pos hempty]
    cases h
    simp
  · rw [if_neg hempty] at h
    rw [if_neg hempty]
    by_cases hncm : (DocumentComparator.isNcmKey c.key &&
        !DocumentComparator.keysAreBLInvoice (collect c)) = true
    · rw [if_pos hncm] at h
      rw [if_pos hncm]
      cases h
      refine ⟨rfl, rfl, by simp, by simp only [Option.toList_some, List.length_cons, List.length_nil]; omega⟩
    · rw [if_neg hncm] at h
      rw [if_neg hncm]
      cases hm : DocumentComparator.matchResult c.ctype (collect c) with
      | none => rw [hm] at h; cases h
      | some m =>
          rw [hm] at h
          cases m with
          | true =>
              dsimp only at h ⊢
              cases h
              refine ⟨rfl, rfl, by simp, by simp only [Option.toList_some, List.length_cons, List.length_nil]; omega⟩
          | false =>
              dsimp only at h ⊢
              cases h
              refine ⟨rfl, rfl, by simp, by simp only [Option.toList_some, List.length_cons, List.length_nil]; omega⟩

/-- Running the comparison loop from any accumulator appends exactly the
details of the non-skipped comparisons, in list order. -/
theorem foldlM_step_out (cs : List Comparison) (r r' : DocumentComparator.Report)
    (h : List.foldlM DocumentComparator.step r cs = some r') :
    r'.details = r.details ++ cs.filterMap DocumentComparator.detailOf ∧
    r'.warnings = r.warnings ∧
    r'.total_checks =
      r.total_checks + (cs.filterMap DocumentComparator.detailOf).length ∧
    r'.passed + r'.failed =
      r.passed + r.failed + (cs.filterMap DocumentComparator.detailOf).length := by
  induction cs generalizing r with
  | nil =>
      rw [List.foldlM_nil] at h
      cases h
      simp
  | cons c cs ih =>
      rw [List.foldlM_cons] at h
      cases hstep : DocumentComparator.step r c with
      | none => rw [hstep] at h; cases h
      | some r1 =>
          rw [hstep] at h
          simp only [Option.bind_eq_bind, Option.some_bind] at h
          obtain ⟨hd, hw, ht, hpf⟩ := step_out r r1 c hstep
          obtain ⟨hd', hw', ht', hpf'⟩ := ih r1 h
          refine ⟨?_, by omega, ?_, ?_⟩
          · rw [hd', hd, List.filterMap_cons]
            cases DocumentComparator.detailOf c <;> simp
          · rw [ht', ht, List.filterMap_cons]
            cases DocumentComparator.detailOf c <;> simp <;> omega
          · rw [hpf', hpf, List.filterMap_cons]
            cases DocumentComparator.detailOf c <;> simp <;> omega

/-- The non-skipped details carry the field names of the comparisons whose
collected value set is nonempty, in order. -/
theorem filterMap_detailOf_fields (cs : List Comparison) :
    (cs.filterMap DocumentComparator.detailOf).map
      DocumentComparator.Detail.field =
    (cs.filter (fun c => !(collect c).isEmpty)).map Comparison.field := by
  induction cs with
  | nil => rfl
  | cons c cs ih =>
      rw [List.filterMap_cons, List.filter_cons]
      by_cases hempty : collect c = []
      · simp [DocumentComparator.detailOf, hempty, ih]
      · simp [DocumentComparator.detailOf, hempty, ih,
          List.isEmpty_iff]

/-- C4: every report `DocumentComparator.compare` returns satisfies
`total_checks = passed + failed`, `warnings = 0`, one detail per counted
check, each detail being the field name, the collected role/value map and
a status in `{match, mismatch}`; and the details follow the fixed
evaluation order (shipper name, consignee, CNPJ, NCM 4, NCM 8, packages,
gross weight, CBM) restricted to the non-skipped fields. -/
theorem C4_report_invariants (bl invoice : DocumentData)
    (packing : Option DocumentData) (r : DocumentComparator.Report)
    (h : DocumentComparator.compare bl invoice packing = some r) :
    r.total_checks = r.passed + r.failed ∧
    r.warnings = 0 ∧
    r.details.length = r.total_checks ∧
    (∀ d ∈ r.details,
      d.status = "match" ∨ d.status = "mismatch") ∧
    r.details =
      (comparisons bl invoice packing).filterMap DocumentComparator.detailOf ∧
    (comparisons bl invoice packing).map Comparison.field =
      ["Shipper Name", "Consignee", "CNPJ", "NCM 4 Digits", "NCM 8 Digits",
       "Number of Packages", "Gross Weight (kg)", "CBM (m³)"] ∧
    r.details.map DocumentComparator.Detail.field =
      ((comparisons bl invoice packing).filter
        (fun c => !(collect c).isEmpty)).map Comparison.field := by
  unfold DocumentComparator.compare at h
  obtain ⟨hd, hw, ht, hpf⟩ := foldlM_step_out _ _ _ h
  simp only [List.nil_append] at hd
  dsimp only at hw ht hpf
  refine ⟨by omega, hw, ?_, ?_, hd, ?_, ?_⟩
  · rw [hd, ht]
    simp
  · intro d hmem
    rw [hd] at hmem
    obtain ⟨c, _, hdc⟩ := List.mem_filterMap.mp hmem
    unfold DocumentComparator.detailOf at hdc
    by_cases hempty : collect c = []
    · rw [if_pos hempty] at hdc; cases hdc
    · rw [if_neg hempty] at hdc
      cases hdc
      exact statusOf_cases c
  · cases packing <;> rfl
  · rw [hd, filterMap_detailOf_fields]

theorem C4_report_invariants_witness :
    DocumentComparator.compare blW invW none = some reportW ∧
    (reportW.total_checks = reportW.passed + reportW.failed ∧
     reportW.warnings = 0 ∧
     reportW.details.length = reportW.total_checks ∧
     (∀ d ∈ reportW.details,
       d.status = "match" ∨ d.status = "mismatch") ∧
     reportW.details =
       (comparisons blW invW none).filterMap DocumentComparator.detailOf ∧
     (comparisons blW invW none).map Comparison.field =
       ["Shipper Name", "Consignee", "CNPJ", "NCM 4 Digits", "NCM 8 Digits",
        "Number of Packages", "Gross Weight (kg)", "CBM (m³)"] ∧
     reportW.details.map DocumentComparator.Detail.field =
       ((comparisons blW invW none).filter
         (fun c => !(collect c).isEmpty)).map Comparison.field) :=
  ⟨by decide, C4_report_invariants blW invW none reportW (by decide)⟩

theorem mapM_eq_some_filterMap {α β : Type} (f : α → Option β) (l : List α)
    (h : ∀ a ∈ l, (f a).isSome) : l.mapM f = some (l.filterMap f) := by
  rw [← List.mapM'_eq_mapM]
  induction l with
  | nil => rfl
  | cons a t ih =>
      obtain ⟨b, hb⟩ := Option.isSome_iff_exists.mp (h a (List.mem_cons_self a t))
      rw [List.mapM', hb, List.filterMap_cons, hb,
        ih (fun x hx => h x (List.mem_cons_of_mem a hx))]
      simp

theorem getVal_str (doc : DocumentData) (k : FieldKey)
    (hk : k = .shipper_name ∨ k = .consignee ∨ k = .cnpj ∨ k = .ncm_4d ∨
      k = .ncm_8d) (v : Value) (h : getVal doc k = some v) : ∃ s, v = .str s := by
  rcases hk with rfl | rfl | rfl | rfl | rfl <;>
    (simp only [getVal, Option.map_eq_some'] at h
     obtain ⟨s, _, hb⟩ := h
     exact ⟨s, hb.symm⟩)

theorem getVal_toQ (doc : DocumentData) (k : FieldKey)
    (hk : k = .packages ∨ k = .gross_weight ∨ k = .cbm) (v : Value)
    (h : getVal doc k = some v) : (v.toQ).isSome := by
  rcases hk with rfl | rfl | rfl <;>
    (simp only [getVal, Option.map_eq_some'] at h
     obtain ⟨s, _, hb⟩ := h
     rw [← hb]
     rfl)

theorem collect_shape (c : Comparison) (P : Value → Prop)
    (hP : ∀ doc v, getVal doc c.key = some v → P v) :
    ∀ v ∈ (collect c).map Prod.snd, P v := by
  intro v hv
  simp only [List.mem_map] at hv
  obtain ⟨⟨n, w⟩, hmem, rfl⟩ := hv
  obtain ⟨⟨role, doc⟩, _, hget⟩ := List.mem_filterMap.mp hmem
  simp only [Option.map_eq_some'] at hget
  obtain ⟨u, hu, huv⟩ := hget
  cases huv
  exact hP doc _ hu

theorem compare_text_isSome (values : List (String × Value))
    (h : ∀ v ∈ values.map Prod.snd, ∃ s, v = Value.str s) :
    (DocumentComparator.compare_text values).isSome := by
  unfold DocumentComparator.compare_text
  have hl : ∀ v ∈ (values.map Prod.snd).filterMap
      (fun v => if v.truthy then some v else none), ∃ s, v = Value.str s := by
    intro v hv
    obtain ⟨u, hu, hif⟩ := List.mem_filterMap.mp hv
    by_cases ht : u.truthy
    · rw [if_pos ht] at hif; cases hif; exact h _ hu
    · rw [if_neg ht] at hif; cases hif
  rw [mapM_eq_some_filterMap _ _ (fun a ha => by obtain ⟨s, rfl⟩ := hl a ha; rfl)]
  rfl

theorem compare_numeric_isSome (values : List (String × Value)) (tol : ℚ)
    (h : ∀ v ∈ values.map Prod.snd, (v.toQ).isSome)
    (hm : tol ≠ 0 →
      ((values.map Prod.snd).filterMap Value.toQ) ≠ [] →
      listMean ((values.map Prod.snd).filterMap Value.toQ) ≠ 0) :
    (DocumentComparator.compare_numeric values tol).isSome := by
  unfold DocumentComparator.compare_numeric
  rw [mapM_eq_some_filterMap _ _ h]
  simp only [Option.bind_eq_bind, Option.some_bind]
  by_cases hn : (values.map Prod.snd).filterMap Value.toQ = []
  · rw [if_pos hn]; rfl
  · rw [if_neg hn]
    by_cases ht : tol = 0
    · rw [if_pos ht]; rfl
    · have hmean := hm ht hn
      unfold listMean at hmean
      rw [if_neg ht, if_neg hmean]
      rfl

theorem step_isSome (r : DocumentComparator.Report) (c : Comparison)
    (h : (DocumentComparator.matchResult c.ctype (collect c)).isSome) :
    (DocumentComparator.step r c).isSome := by
  unfold DocumentComparator.step
  by_cases hempty : collect c = []
  · rw [if_pos hempty]; rfl
  · rw [if_neg hempty]
    by_cases hncm : (DocumentComparator.isNcmKey c.key &&
        !DocumentComparator.keysAreBLInvoice (collect c)) = true
    · rw [if_pos hncm]; rfl
    · rw [if_neg hncm]
      obtain ⟨m, hmr⟩ := Option.isSome_iff_exists.mp h
      rw [hmr]
      cases m <;> simp

theorem foldlM_step_isSome (cs : List Comparison)
    (h : ∀ c ∈ cs, ∀ r, (DocumentComparator.step r c).isSome) :
    ∀ r, (List.foldlM DocumentComparator.step r cs).isSome := by
  induction cs with
  | nil => intro r; rfl
  | cons c t ih =>
      intro r
      rw [List.foldlM_cons]
      obtain ⟨r1, hr1⟩ :=
        Option.isSome_iff_exists.mp (h c (List.mem_cons_self c t) r)
      rw [hr1]
      simp only [Option.bind_eq_bind, Option.some_bind]
      exact ih (fun x hx r' => h x (List.mem_cons_of_mem c hx) r') r1

/-- C10: `DocumentComparator.compare` returns a report (raises nothing)
whenever, for each of the two tolerance-bearing numeric fields
(`gross_weight`, `cbm`), either no value was collected or the arithmetic
mean of the collected values is nonzero: the only partial operation in the
comparator is `_compare_numeric`'s division by that mean. -/
theorem C10_compare_total_when_means_nonzero (bl invoice : DocumentData)
    (packing : Option DocumentData)
    (hgw : collectNums (grossWeightComp bl invoice packing) ≠ [] →
      listMean (collectNums (grossWeightComp bl invoice packing)) ≠ 0)
    (hcbm : collectNums (cbmComp bl invoice packing) ≠ [] →
      listMean (collectNums (cbmComp bl invoice packing)) ≠ 0) :
    (DocumentComparator.compare bl invoice packing).isSome := by
  unfold DocumentComparator.compare
  refine foldlM_step_isSome _ ?_ _
  have htext : ∀ c : Comparison,
      (c.key = .shipper_name ∨ c.key = .consignee ∨ c.key = .cnpj ∨
        c.key = .ncm_4d ∨ c.key = .ncm_8d) → c.ctype = .text →
      ∀ r, (DocumentComparator.step r c).isSome := by
    intro c hk hct r
    refine step_isSome r c ?_
    rw [hct]
    exact compare_text_isSome _ (collect_shape c _ (getVal_str · c.key hk))
  have hnum : ∀ c : Comparison,
      (c.key = .packages ∨ c.key = .gross_weight ∨ c.key = .cbm) →
      ∀ tol, c.ctype = .numeric tol →
      (tol ≠ 0 → collectNums c ≠ [] → listMean (collectNums c) ≠ 0) →
      ∀ r, (DocumentComparator.step r c).isSome := by
    intro c hk tol hct hmean r
    refine step_isSome r c ?_
    rw [hct]
    exact compare_numeric_isSome _ _
      (collect_shape c _ (getVal_toQ · c.key hk)) hmean
  intro c hc
  simp only [comparisons, List.mem_cons, List.not_mem_nil, or_false] at hc
  rcases hc with rfl | rfl | rfl | rfl | rfl | rfl | rfl | rfl
  · exact htext _ (Or.inl rfl) rfl
  · exact htext _ (Or.inr (Or.inl rfl)) rfl
  · intro r
    exact step_isSome r _ (by rw [show (cnpjComp bl invoice).ctype = .cnpjType from rfl]; rfl)
  · exact htext _ (Or.inr (Or.inr (Or.inr (Or.inl rfl)))) rfl
  · exact htext _ (Or.inr (Or.inr (Or.inr (Or.inr rfl)))) rfl
  · exact hnum _ (Or.inl rfl) 0 rfl (fun h0 _ => absurd rfl h0)
  · exact hnum _ (Or.inr (Or.inl rfl)) (2/100) rfl (fun _ => hgw)
  · exact hnum _ (Or.inr (Or.inr rfl)) (2/100) rfl (fun _ => hcbm)

theorem C10_compare_total_witness :
    (collectNums (grossWeightComp { } { } none) ≠ [] →
      listMean (collectNums (grossWeightComp { } { } none)) ≠ 0) ∧
    (collectNums (cbmComp { } { } none) ≠ [] →
      listMean (collectNums (cbmComp { } { } none)) ≠ 0) ∧
    (DocumentComparator.compare { } { } none).isSome := by
  refine ⟨fun h => absurd rfl h, fun h => absurd rfl h, ?_⟩
  exact C10_compare_total_when_means_nonzero { } { } none
    (fun h => absurd rfl h) (fun h => absurd rfl h)

/-- C1 counterexample: on two negative weights that differ by far more
than 2%, `_compare_numeric` divides by the signed (negative) mean, making
every term nonpositive, and reports a match — `compare` marks the Gross
Weight field `"match"` although the relative deviation from the mean is
1/21 > 1/50. -/
theorem C1_counterexample :
    DocumentComparator.compare_numeric
      [("BL", .num (-100)), ("Invoice", .num (-110))] (2/100) = some true ∧
    DocumentComparator.compare { gross_weight := some (-100) }
      { gross_weight := some (-110) } none =
      some ⟨1, 1, 0, 0,
        [⟨"Gross Weight (kg)", [("BL", .num (-100)), ("Invoice", .num (-110))],
          "match"⟩]⟩ ∧
    ¬ specNumericMatch [-100, -110] (2/100) := by
  refine ⟨?_, ?_, ?_⟩
  · norm_num [DocumentComparator.compare_numeric, Value.toQ, List.mapM,
      List.mapM.loop, abs_of_nonneg, abs_of_nonpos]
    decide
  · norm_num [DocumentComparator.compare, comparisons, shipperComp, consigneeComp,
      cnpjComp, ncm4Comp, ncm8Comp, packagesComp, grossWeightComp, cbmComp,
      docsBI, docsBIP, collect, getVal, List.foldlM, DocumentComparator.step,
      DocumentComparator.matchResult, DocumentComparator.compare_numeric,
      Value.toQ, List.mapM, List.mapM.loop, DocumentComparator.isNcmKey,
      List.filterMap_cons, Option.map_some, Option.map_none, Function.comp,
      abs_of_nonneg, abs_of_nonpos]
    all_goals decide
  · unfold specNumericMatch listMean
    push_neg
    intro _
    refine ⟨-100, by simp, ?_⟩
    norm_num [abs_of_nonneg, abs_of_nonpos]

theorem dedup_length_eq_one_iff {α : Type} [DecidableEq α] (l : List α) :
    l.dedup.length = 1 ↔ l ≠ [] ∧ ∀ a ∈ l, ∀ b ∈ l, a = b := by
  constructor
  · intro h
    obtain ⟨a, ha⟩ := List.length_eq_one.mp h
    have hmem : ∀ x ∈ l, x = a := by
      intro x hx
      have hxd : x ∈ l.dedup := List.mem_dedup.mpr hx
      rw [ha] at hxd
      simpa using hxd
    refine ⟨?_, fun x hx y hy => by rw [hmem x hx, hmem y hy]⟩
    intro hnil
    rw [hnil] at ha
    simp at ha
  · rintro ⟨hne, hall⟩
    obtain ⟨c, t, rfl⟩ := List.exists_cons_of_ne_nil hne
    have hsub : ∀ x ∈ (c :: t).dedup, x = c := fun x hx =>
      hall x (List.mem_dedup.mp hx) c (List.mem_cons_self c t)
    have hcmem : c ∈ (c :: t).dedup :=
      List.mem_dedup.mpr (List.mem_cons_self c t)
    have hnd : (c :: t).dedup.Nodup := List.nodup_dedup _
    cases hd : (c :: t).dedup with
    | nil => rw [hd] at hcmem; cases hcmem
    | cons x xs =>
        cases xs with
        | nil => rfl
        | cons y ys =>
            exfalso
            rw [hd] at hnd hsub
            have hx : x = c := hsub x (List.mem_cons_self _ _)
            have hy : y = c := hsub y (List.mem_cons_of_mem _ (List.mem_cons_self _ _))
            rw [List.nodup_cons] at hnd
            exact hnd.1 (by rw [hx, hy]; exact List.mem_cons_self _ _)

/-- C1 amended: for collected values whose float coercion succeeds, a
tolerance-bearing numeric field with a positive mean matches iff every
value's relative deviation from the mean is at most the tolerance; with a
negative mean the signed division makes the field match unconditionally
(for any nonnegative tolerance); a zero mean raises (claim C10); and a
tolerance-0 field matches iff all coerced values are equal.  The weights
100, 101, 102 match and 100, 110 mismatch, as the claim states. -/
theorem C1_numeric_tolerance_amended :
    (∀ (values : List (String × Value)) (nums : List ℚ) (tol : ℚ),
      (values.map Prod.snd).mapM Value.toQ = some nums →
      nums ≠ [] → tol ≠ 0 → 0 < listMean nums →
      (DocumentComparator.compare_numeric values tol = some true ↔
        specNumericMatch nums tol)) ∧
    (∀ (values : List (String × Value)) (nums : List ℚ) (tol : ℚ),
      (values.map Prod.snd).mapM Value.toQ = some nums →
      nums ≠ [] → tol ≠ 0 → 0 ≤ tol → listMean nums < 0 →
      DocumentComparator.compare_numeric values tol = some true) ∧
    (∀ (values : List (String × Value)) (nums : List ℚ),
      (values.map Prod.snd).mapM Value.toQ = some nums →
      nums ≠ [] →
      (DocumentComparator.compare_numeric values 0 = some true ↔
        ∀ a ∈ nums, ∀ b ∈ nums, a = b)) ∧
    DocumentComparator.compare { gross_weight := some 100 }
      { gross_weight := some 101 } (some { gross_weight := some 102 }) =
      some ⟨1, 1, 0, 0,
        [⟨"Gross Weight (kg)",
          [("BL", .num 100), ("Invoice", .num 101), ("Packing", .num 102)],
          "match"⟩]⟩ ∧
    DocumentComparator.compare { gross_weight := some 100 }
      { gross_weight := some 110 } none =
      some ⟨1, 0, 1, 0,
        [⟨"Gross Weight (kg)", [("BL", .num 100), ("Invoice", .num 110)],
          "mismatch"⟩]⟩ := by
  have hmain : ∀ (values : List (String × Value)) (nums : List ℚ) (tol : ℚ),
      (values.map Prod.snd).mapM Value.toQ = some nums →
      nums ≠ [] → tol ≠ 0 → listMean nums ≠ 0 →
      (DocumentComparator.compare_numeric values tol = some true ↔
        nums.all (fun n => |n - listMean nums| / listMean nums ≤ tol) = true) := by
    intro values nums tol hmap hne ht hmean
    unfold DocumentComparator.compare_numeric
    rw [hmap]
    simp only [Option.bind_eq_bind, Option.some_bind]
    rw [if_neg hne, if_neg ht]
    unfold listMean at hmean
    rw [if_neg hmean]
    unfold listMean
    simp
  refine ⟨?_, ?_, ?_, ?_, ?_⟩
  · intro values nums tol hmap hne ht hpos
    rw [hmain values nums tol hmap hne ht (ne_of_gt hpos)]
    unfold specNumericMatch
    rw [List.all_eq_true]
    constructor
    · intro h
      refine ⟨hne, fun n hn => ?_⟩
      have := h n hn
      rw [decide_eq_true_iff] at this
      rwa [abs_of_pos hpos]
    · rintro ⟨-, h⟩ n hn
      rw [decide_eq_true_iff]
      have := h n hn
      rwa [abs_of_pos hpos] at this
  · intro values nums tol hmap hne ht htol hneg
    rw [hmain values nums tol hmap hne ht (ne_of_lt hneg)]
    rw [List.all_eq_true]
    intro n hn
    rw [decide_eq_true_iff]
    exact le_trans
      (div_nonpos_iff.mpr (Or.inl ⟨abs_nonneg _, hneg.le⟩)) htol
  · intro values nums hmap hne
    unfold DocumentComparator.compare_numeric
    rw [hmap]
    simp only [Option.bind_eq_bind, Option.some_bind, if_neg hne]
    norm_num
    rw [dedup_length_eq_one_iff]
    simp [hne]
  · norm_num [DocumentComparator.compare, comparisons, shipperComp, consigneeComp,
      cnpjComp, ncm4Comp, ncm8Comp, packagesComp, grossWeightComp, cbmComp,
      docsBI, docsBIP, collect, getVal, List.foldlM, DocumentComparator.step,
      DocumentComparator.matchResult, DocumentComparator.compare_numeric,
      Value.toQ, List.mapM, List.mapM.loop, DocumentComparator.isNcmKey,
      List.filterMap_cons, Option.map_some, Option.map_none, Function.comp,
      abs_of_nonneg, abs_of_nonpos]
    all_goals decide
  · norm_num [DocumentComparator.compare, comparisons, shipperComp, consigneeComp,
      cnpjComp, ncm4Comp, ncm8Comp, packagesComp, grossWeightComp, cbmComp,
      docsBI, docsBIP, collect, getVal, List.foldlM, DocumentComparator.step,
      DocumentComparator.matchResult, DocumentComparator.compare_numeric,
      Value.toQ, List.mapM, List.mapM.loop, DocumentComparator.isNcmKey,
      List.filterMap_cons, Option.map_some, Option.map_none, Function.comp,
      abs_of_nonneg, abs_of_nonpos]
    all_goals decide

theorem C1_numeric_tolerance_amended_witness :
    (([("BL", Value.num 100), ("Invoice", Value.num 110)].map Prod.snd).mapM
      Value.toQ = some [100, 110] ∧
     ([100, 110] : List ℚ) ≠ [] ∧ (2/100 : ℚ) ≠ 0 ∧
     0 < listMean [100, 110]) ∧
    (DocumentComparator.compare_numeric
      [("BL", Value.num 100), ("Invoice", Value.num 110)] (2/100) = some true ↔
      specNumericMatch [100, 110] (2/100)) := by
  refine ⟨⟨rfl, by decide, by norm_num, by norm_num [listMean]⟩, ?_⟩
  exact C1_numeric_tolerance_amended.1
    [("BL", Value.num 100), ("Invoice", Value.num 110)] [100, 110] (2/100)
    rfl (by decide) (by norm_num) (by norm_num [listMean])

theorem find?_save_workflow_cache (cfg : Config) (hen : cfg.enabled = true)
    (k b i : String) (p : Option String) (rep : WorkflowReport) (now : ℕ)
    (st : Store) :
    (save_workflow_cache cfg k b i p rep now st).wfs.find?
      (fun e => e.workflow_hash = k) = some ⟨k, b, i, p, rep, now, now⟩ := by
  unfold save_workflow_cache
  simp [hen]

/-- `find?` by key commutes with the `last_access` touch of that key. -/
theorem find?_touch (l : List WfEntry) (k : String) (now : ℕ) :
    (l.map (fun x => if x.workflow_hash = k then { x with last_access := now }
      else x)).find? (fun e => e.workflow_hash = k) =
    (l.find? (fun e => e.workflow_hash = k)).map
      (fun x => if x.workflow_hash = k then { x with last_access := now } else x) := by
  induction l with
  | nil => rfl
  | cons x t ih =>
      by_cases hx : x.workflow_hash = k
      · simp [List.find?_cons, hx]
      · rw [List.map_cons, if_neg hx, List.find?_cons, List.find?_cons,
          show decide (x.workflow_hash = k) = false from by simp [hx]]
        exact ih

/-- On a hit, `get_workflow_cache` serves the report of the entry stored
under the key, and that entry survives (with `last_access` refreshed, the
report unchanged) under the same key. -/
theorem get_workflow_cache_hit (cfg : Config) (k : String) (now : ℕ)
    (st st' : Store) (res : WorkflowReport)
    (h : get_workflow_cache cfg k now st = (some res, st')) :
    ∃ e, st'.wfs.find? (fun x => x.workflow_hash = k) = some e ∧
      e.report = res := by
  unfold get_workflow_cache at h
  by_cases hen : cfg.enabled
  · rw [hen] at h
    simp only [Bool.not_true, Bool.false_eq_true, if_false] at h
    cases hfind : st.wfs.find? (fun x => x.workflow_hash = k) with
    | none => rw [hfind] at h; cases h
    | some e =>
        rw [hfind] at h
        dsimp only at h
        by_cases hexp : cfg.ttlDays ≠ 0 ∧ is_expired cfg e.created_at now
        · rw [if_pos hexp] at h; cases h
        · rw [if_neg hexp] at h
          obtain ⟨hres, hst⟩ := Prod.mk.injEq .. ▸ h
          cases hres
          refine ⟨if e.workflow_hash = k then { e with last_access := now }
            else e, ?_, ?_⟩
          · rw [← hst]
            dsimp only
            rw [find?_touch, hfind]
            rfl
          · by_cases hk : e.workflow_hash = k
            · rw [if_pos hk]
            · rw [if_neg hk]
  · rw [Bool.not_eq_true] at hen
    rw [hen] at h
    simp only [Bool.not_false, if_true] at h
    cases h

/-- When the key is present, enabled and fresh, `get_workflow_cache` hits
and refreshes only `last_access`. -/
theorem get_workflow_cache_found (cfg : Config) (k : String) (now : ℕ)
    (st : Store) (e : WfEntry) (hen : cfg.enabled = true)
    (hfind : st.wfs.find? (fun x => x.workflow_hash = k) = some e)
    (hfresh : ¬(cfg.ttlDays ≠ 0 ∧ is_expired cfg e.created_at now)) :
    get_workflow_cache cfg k now st =
      (some e.report,
       { st with wfs := st.wfs.map (fun x =>
           if x.workflow_hash = k then { x with last_access := now } else x) }) := by
  unfold get_workflow_cache
  rw [hen]
  simp only [Bool.not_true, Bool.false_eq_true, if_false]
  rw [hfind]
  dsimp only
  rw [if_neg hfresh]

/-- Any successful non-forced `process_complete` run leaves (or finds) a
workflow-cache entry under the run's workflow key whose stored report is
exactly the report it returned. -/
theorem process_complete_installs (cfg : Config) (digest fileHash : String → String)
    (oracle : String → String → DocumentData) (vo : String → String)
    (blPath invPath : String) (pkPath : Option String) (t : ℕ) (st : Store)
    (out : ProcOut) (hen : cfg.enabled = true)
    (h : process_complete cfg digest fileHash oracle vo blPath invPath pkPath
      false t st = some out) :
    ∃ e, out.store.wfs.find? (fun x => x.workflow_hash =
        workflow_hash digest (fileHash blPath) (fileHash invPath)
          (pkPath.map fileHash)) = some e ∧
      e.report = out.report := by
  unfold process_complete at h
  simp only [Bool.not_false, eq_self_iff_true, if_true, Bool.false_eq_true,
    if_false] at h
  cases hget : get_workflow_cache cfg
      (workflow_hash digest (fileHash blPath) (fileHash invPath)
        (pkPath.map fileHash)) t st with
  | mk res st' =>
      rw [hget] at h
      cases res with
      | some rep =>
          dsimp only at h
          cases h
          obtain ⟨e, hfind, hrep⟩ := get_workflow_cache_hit cfg _ t st st' rep hget
          exact ⟨e, hfind, hrep⟩
      | none =>
          dsimp only at h
          cases hbl : extract_with_cache cfg oracle (fileHash blPath) "bl"
              blPath false t st with
          | mk bl_d q1 =>
              cases q1 with
              | mk st1 c1 =>
                  rw [hbl] at h
                  dsimp only at h
                  cases hinv : extract_with_cache cfg oracle (fileHash invPath)
                      "invoice" invPath false t st1 with
                  | mk inv_d q2 =>
                      cases q2 with
                      | mk st2 c2 =>
                          rw [hinv] at h
                          dsimp only at h
                          cases pkPath with
                          | none =>
                              dsimp only at h
                              cases hrep : build_report vo
                                  (["bl", "invoice"] ++ []) bl_d inv_d none t with
                              | none => rw [hrep] at h; cases h
                              | some rep =>
                                  rw [hrep] at h
                                  dsimp only at h
                                  cases h
                                  exact ⟨_, find?_save_workflow_cache cfg hen _ _ _ _ _ _ _, rfl⟩
                          | some p =>
                              dsimp only at h
                              cases hpk : extract_with_cache cfg oracle (fileHash p)
                                  "packing" p false t st2 with
                              | mk pk_d q3 =>
                                  cases q3 with
                                  | mk st3 c3 =>
                                      rw [hpk] at h
                                      dsimp only at h
                                      cases hrep : build_report vo
                                          (["bl", "invoice"] ++ ["packing"])
                                          bl_d inv_d (some pk_d) t with
                                      | none => rw [hrep] at h; cases h
                                      | some rep =>
                                          rw [hrep] at h
                                          dsimp only at h
                                          cases h
                                          exact ⟨_, find?_save_workflow_cache cfg hen _ _ _ _ _ _ _, rfl⟩

/-- C5: with the cache enabled, after a successful non-forced
`process_complete` run, a second non-forced run on the same file contents
(same hashes, TTL not elapsed for the stored entry) returns exactly the
first run's report, marks it as cached, and never invokes the external
extractor. -/
theorem C5_workflow_idempotence (cfg : Config) (digest fileHash : String → String)
    (oracle : String → String → DocumentData) (vo : String → String)
    (blPath invPath : String) (pkPath : Option String) (t1 t2 : ℕ) (st0 : Store)
    (out1 : ProcOut) (hen : cfg.enabled = true)
    (h1 : process_complete cfg digest fileHash oracle vo blPath invPath pkPath
      false t1 st0 = some out1)
    (hfresh : ∀ e, out1.store.wfs.find? (fun x => x.workflow_hash =
        workflow_hash digest (fileHash blPath) (fileHash invPath)
          (pkPath.map fileHash)) = some e →
      ¬(cfg.ttlDays ≠ 0 ∧ is_expired cfg e.created_at t2)) :
    (process_complete cfg digest fileHash oracle vo blPath invPath pkPath
      false t2 out1.store).map (fun o => (o.report, o.cached, o.extractorCalls)) =
    some (out1.report, true, 0) := by
  obtain ⟨e, hfind, hrep⟩ := process_complete_installs cfg digest fileHash oracle
    vo blPath invPath pkPath t1 st0 out1 hen h1
  unfold process_complete
  simp only [Bool.not_false, eq_self_iff_true, if_true, Bool.false_eq_true,
    if_false]
  rw [get_workflow_cache_found cfg _ t2 out1.store e hen hfind (hfresh e hfind)]
  dsimp only
  rw [hrep]
  rfl

theorem C5_workflow_idempotence_witness :
    cfgW5.enabled = true ∧
    process_complete cfgW5 digestW5 digestW5 oracleW5 voW5 "b" "i" none false 0
      ⟨[], []⟩ = some out1W5 ∧
    (process_complete cfgW5 digestW5 digestW5 oracleW5 voW5 "b" "i" none false 5
      out1W5.store).map (fun o => (o.report, o.cached, o.extractorCalls)) =
      some (out1W5.report, true, 0) := by
  have hrun : process_complete cfgW5 digestW5 digestW5 oracleW5 voW5 "b" "i" none
      false 0 ⟨[], []⟩ = some out1W5 := by decide
  have hf : ∀ e, out1W5.store.wfs.find? (fun x => x.workflow_hash =
      workflow_hash digestW5 (digestW5 "b") (digestW5 "i")
        (Option.map digestW5 none)) = some e →
      ¬(cfgW5.ttlDays ≠ 0 ∧ is_expired cfgW5 e.created_at 5) :=
    fun _ _ hc => hc.1 rfl
  exact ⟨rfl, hrun,
    C5_workflow_idempotence cfgW5 digestW5 digestW5 oracleW5 voW5 "b" "i" none
      0 5 ⟨[], []⟩ out1W5 rfl hrun hf⟩

